import Mathlib

/-!
Shallow embedding of the Expense-Tracker repository (src/app.js and
src/firebase-config.js) and proofs about its specified behaviour.

Modelling conventions:
* A JavaScript number is modelled as `Option ℚ`, with `none` standing for
  NaN (the only non-finite value the claims exercise); arithmetic
  propagates NaN as in JS.
* `localStorage` under the fixed storage key is modelled as `Option Record`
  (`none` = no item stored).  `JSON.parse ∘ JSON.stringify` is the identity
  on stored records, so the store holds the record value itself; a separate
  executable `stringify` renders the record as JSON text for the
  5 MiB size-ceiling check in `saveData` (string escaping and the
  informational `version` and `createdAt` metadata fields are not rendered,
  and rationals are printed with Lean's rational notation: the ceiling
  check only depends on the length of the rendered text).
* Each operation of the source is a function from the store state to a
  result paired with the state it leaves behind; operations whose bodies
  never call `localStorage.setItem` return the input state unchanged, as
  the source bodies do.
* `generateId` (Date.now plus Math.random) and `new Date().toISOString()`
  are nondeterministic; operations take the generated id and the current
  timestamp as explicit arguments.
-/

/-- A JavaScript number: a finite value or NaN. -/
abbrev JsNum := Option ℚ

/-- JS addition: NaN propagates. -/
def jadd (a b : JsNum) : JsNum :=
  match a, b with
  | some x, some y => some (x + y)
  | _, _ => none

/-- JS subtraction: NaN propagates. -/
def jsub (a b : JsNum) : JsNum :=
  match a, b with
  | some x, some y => some (x - y)
  | _, _ => none

/-- JS `x || 0` on a number: NaN and 0 are falsy and give 0. -/
def jOrZero (j : JsNum) : JsNum :=
  match j with
  | none => some 0
  | some q => if q = 0 then some 0 else some q

/-- A JavaScript value appearing as user input: a number, a string, or
`undefined` (an absent property). -/
inductive JsIn where
  | num (j : JsNum)
  | str (s : String)
  | undef
deriving DecidableEq

/-- Value of a list of decimal digit characters. -/
def natOfDigits (ds : List Char) : ℕ :=
  ds.foldl (fun a c => 10 * a + (c.toNat - 48)) 0

/-- JS `parseFloat` on a string: optional leading whitespace and sign, then
decimal digits with an optional fractional part; NaN when no digit is
found.  (Exponent notation and the literal `Infinity` are outside the
model.) -/
def strParseFloat (s : String) : JsNum :=
  let cs := s.data.dropWhile (fun c => c = ' ' ∨ c = '\t' ∨ c = '\n')
  let sign : ℚ × List Char :=
    match cs with
    | '-' :: r => (-1, r)
    | '+' :: r => (1, r)
    | _ => (1, cs)
  let intDs := sign.2.takeWhile Char.isDigit
  let rest := sign.2.dropWhile Char.isDigit
  let fracDs :=
    match rest with
    | '.' :: r => r.takeWhile Char.isDigit
    | _ => []
  if intDs.isEmpty ∧ fracDs.isEmpty then none
  else some (sign.1 * ((natOfDigits intDs : ℚ) +
    (natOfDigits fracDs : ℚ) / (10 : ℚ) ^ fracDs.length))

/-- JS `parseFloat` on a value: numbers round-trip through their string
rendering unchanged (NaN stays NaN), strings are parsed, `undefined`
stringifies to "undefined" and parses to NaN. -/
def parseFloat : JsIn → JsNum
  | JsIn.num j => j
  | JsIn.str s => strParseFloat s
  | JsIn.undef => none

/-- `parseFloat` applied to a possibly-absent property (an absent property
reads as `undefined`). -/
def parseFloatU : Option JsIn → JsNum
  | some v => parseFloat v
  | none => none

/-- An expense entry as persisted by `src/app.js`. -/
structure Expense where
  id : String
  description : String
  amount : JsNum
  category : String
  date : String
  createdAt : String
  updatedAt : Option String := none
deriving DecidableEq

/-- The persisted record: budget and expense list (the `version` and
`createdAt` metadata of `getDefaultData` are informational and never
inspected by any operation, so they are not modelled). -/
structure Record where
  budget : JsNum
  expenses : List Expense
deriving DecidableEq

/-- The localStorage slot under the fixed storage key. -/
abbrev Store := Option Record

/-- One expense passes the per-entry checks of
`StorageService.validateDataStructure`: the four text fields are truthy
(non-empty) and the amount is a number that is not NaN. -/
def validExpense (e : Expense) : Bool :=
  !e.id.isEmpty && !e.description.isEmpty && !e.category.isEmpty &&
    !e.date.isEmpty && e.amount.isSome

/-- `StorageService.validateDataStructure`: budget is a non-NaN number and
every expense passes `validExpense`.  (That `data` is an object and
`data.expenses` an array is structural in the model.) -/
def validateDataStructure (d : Record) : Bool :=
  d.budget.isSome && d.expenses.all validExpense

/-- `StorageService.getDefaultData` (metadata fields omitted, see
`Record`). -/
def getDefaultData : Record := ⟨some 0, []⟩

/-- `StorageService.getData`: no stored item or a stored record failing
validation degrades to the default record; parsing cannot fail in the
model because the store holds record values. -/
def getData (s : Store) : Record :=
  match s with
  | none => getDefaultData
  | some r => if validateDataStructure r then r else getDefaultData

/-- JSON rendering of a number (`JSON.stringify` turns NaN into null). -/
def jsNumToJson (j : JsNum) : String :=
  match j with
  | none => "null"
  | some q => toString q

/-- JSON rendering of a string (escaping not modelled). -/
def strJson (s : String) : String := "\"" ++ s ++ "\""

/-- Comma-join, as in rendering a JSON array. -/
def joinComma : List String → String
  | [] => ""
  | [x] => x
  | x :: y :: rest => x ++ "," ++ joinComma (y :: rest)

/-- JSON rendering of one expense. -/
def expenseToJson (e : Expense) : String :=
  "\x7b\"id\":" ++ strJson e.id ++
    ",\"description\":" ++ strJson e.description ++
    ",\"amount\":" ++ jsNumToJson e.amount ++
    ",\"category\":" ++ strJson e.category ++
    ",\"date\":" ++ strJson e.date ++
    ",\"createdAt\":" ++ strJson e.createdAt ++
    (match e.updatedAt with
     | none => ""
     | some u => ",\"updatedAt\":" ++ strJson u) ++ "\x7d"

/-- `JSON.stringify` of the whole record (see module comment for what is
abstracted). -/
def stringify (d : Record) : String :=
  "\x7b\"budget\":" ++ jsNumToJson d.budget ++
    ",\"expenses\":[" ++ joinComma (d.expenses.map expenseToJson) ++
    "]\x7d"

/-- The 5 MiB local-backend ceiling of `saveData`. -/
def sizeLimit : ℕ := 5 * 1024 * 1024

/-- `StorageService.saveData`: validate, serialize, reject oversized data;
the two throw sites are caught by the surrounding try/catch which returns
false, so the caller always receives a boolean.  (`localStorage.setItem`
itself is assumed not to throw: browser-level quota failures below the
5 MiB ceiling are environment behaviour outside the model.) -/
def saveData (d : Record) (s : Store) : Bool × Store :=
  if validateDataStructure d then
    if (stringify d).length > sizeLimit then (false, s)
    else (true, some d)
  else (false, s)

-- ===========================
-- BudgetManager
-- ===========================

/-- `BudgetManager.getBudget`: `data.budget || 0`. -/
def getBudget (s : Store) : JsNum × Store :=
  (jOrZero (getData s).budget, s)

/-- `BudgetManager.setBudget`: `data.budget = parseFloat(amount) || 0`,
then write the whole record back. -/
def setBudget (v : JsIn) (s : Store) : Bool × Store :=
  let d := getData s
  saveData ⟨jOrZero (parseFloat v), d.expenses⟩ s

/-- `expenses.reduce((sum, exp) => sum + parseFloat(exp.amount), 0)`. -/
def amountsSum (es : List Expense) : JsNum :=
  es.foldl (fun acc e => jadd acc (parseFloat (JsIn.num e.amount))) (some 0)

/-- `BudgetManager.getRemainingBudget`: budget minus the sum of the expense
amounts, with no floor at zero. -/
def getRemainingBudget (s : Store) : JsNum × Store :=
  let b := (getBudget s).1
  let es := (getData s).expenses
  (jsub b (amountsSum es), s)

-- ===========================
-- ExpenseManager
-- ===========================

/-- `ExpenseManager.getAllExpenses` (`data.expenses || []`: an array is
always truthy). -/
def getAllExpenses (s : Store) : List Expense × Store :=
  ((getData s).expenses, s)

/-- `ExpenseManager.getExpensesByCategory` with the "all" sentinel. -/
def getExpensesByCategory (c : String) (s : Store) : List Expense × Store :=
  if c = "all" then getAllExpenses s
  else ((getAllExpenses s).1.filter (fun e => e.category = c), s)

/-- Input to `addExpense` as collected from the form. -/
structure AddInput where
  description : String
  amount : JsIn
  category : String
  date : String
deriving DecidableEq

/-- `ExpenseManager.addExpense`: build the new expense (fresh id and
creation timestamp are the explicit `newId` and `now` arguments), push it,
attempt to persist, and return the new expense regardless of the save
outcome. -/
def addExpense (newId now : String) (inp : AddInput) (s : Store) :
    Expense × Store :=
  let d := getData s
  let ne : Expense :=
    ⟨newId, inp.description, parseFloat inp.amount, inp.category,
      inp.date, now, none⟩
  let r := saveData ⟨d.budget, d.expenses ++ [ne]⟩ s
  (ne, r.2)

/-- The change set passed to `updateExpense`; `none` is an absent
property. -/
structure Changes where
  description : Option String := none
  amount : Option JsIn := none
  category : Option String := none
  date : Option String := none
deriving DecidableEq

/-- The merged entry `{...old, ...updates, amount: parseFloat(updates.amount),
updatedAt: now}`: unnamed fields keep their prior values, but `amount` is
always overwritten with `parseFloat` of the (possibly absent) `amount`
property. -/
def mergeExpense (old : Expense) (ch : Changes) (now : String) : Expense :=
  { id := old.id
    description := ch.description.getD old.description
    amount := parseFloatU ch.amount
    category := ch.category.getD old.category
    date := ch.date.getD old.date
    createdAt := old.createdAt
    updatedAt := some now }

/-- `findIndex` plus in-place assignment at the found index, modelled as a
first-match replacement walk returning the merged entry (if any) and the
updated list. -/
def updateFirst (l : List Expense) (id : String) (ch : Changes)
    (now : String) : Option Expense × List Expense :=
  match l with
  | [] => (none, [])
  | e :: rest =>
    if e.id = id then
      let m := mergeExpense e ch now
      (some m, m :: rest)
    else
      let r := updateFirst rest id ch now
      (r.1, e :: r.2)

/-- `ExpenseManager.updateExpense`: not-found returns the null sentinel and
does not write; otherwise merge, attempt to persist, and return the merged
entry regardless of the save outcome. -/
def updateExpense (id : String) (ch : Changes) (now : String) (s : Store) :
    Option Expense × Store :=
  let d := getData s
  match updateFirst d.expenses id ch now with
  | (none, _) => (none, s)
  | (some m, es2) =>
    let r := saveData ⟨d.budget, es2⟩ s
    (some m, r.2)

/-- `ExpenseManager.deleteExpense`: filter out the matching id; when the
list shrank, persist and return true (the save result itself is
discarded), otherwise return false without writing. -/
def deleteExpense (id : String) (s : Store) : Bool × Store :=
  let d := getData s
  let es2 := d.expenses.filter (fun e => e.id ≠ id)
  if es2.length < d.expenses.length then
    let r := saveData ⟨d.budget, es2⟩ s
    (true, r.2)
  else (false, s)

/-- `ExpenseManager.getTotalExpenses`. -/
def getTotalExpenses (s : Store) : JsNum × Store :=
  (amountsSum (getAllExpenses s).1, s)

/-- `ExpenseManager.getExpenseById`. -/
def getExpenseById (id : String) (s : Store) : Option Expense × Store :=
  ((getAllExpenses s).1.find? (fun e => e.id = id), s)

/-- The categories in first-encounter order: the keys of the `stats`
object built by the single pass of `getCategoryStatistics`. -/
def categories (es : List Expense) : List String :=
  (es.map (fun e => e.category)).dedup

/-- The expenses of one category, in order. -/
def catEntries (c : String) (es : List Expense) : List Expense :=
  es.filter (fun e => e.category = c)

/-- One value of the `stats` object of `getCategoryStatistics`.  The
`percentage` field is produced by `toFixed(1)` (a string in JS) in the
positive-total branch and by the number 0 otherwise; it is modelled by its
numeric value. -/
structure CatStat where
  total : JsNum
  count : ℕ
  percentage : ℚ
deriving DecidableEq

/-- Round to one decimal place, ties away from zero toward larger values,
as `toFixed(1)` does. -/
def round1 (q : ℚ) : ℚ := (round (10 * q) : ℤ) / 10

/-- The percentage entry: `total > 0 ? ((catTotal / total) * 100).toFixed(1)
: 0`.  A NaN comparison is falsy, so a NaN grand total also yields 0; a
NaN category total under a positive grand total cannot arise from a
validated record and is modelled as 0. -/
def pctOf (catTot t : JsNum) : ℚ :=
  match t with
  | none => 0
  | some tq =>
    if 0 < tq then
      match catTot with
      | some a => round1 (a / tq * 100)
      | none => 0
    else 0

/-- `ExpenseManager.getCategoryStatistics`: the accumulating pass over the
expenses is modelled per key: each first-encountered category is mapped to
the sum and count of its entries, then percentages are filled in. -/
def getCategoryStatistics (s : Store) : List (String × CatStat) × Store :=
  let es := (getAllExpenses s).1
  let t := (getTotalExpenses s).1
  ((categories es).map (fun c =>
    let tot := amountsSum (catEntries c es)
    (c, ⟨tot, (catEntries c es).length, pctOf tot t⟩)), s)

/-- Model of `new Date(s).getTime()` as used for ordering and ranges: the
digits of an ISO-like date string read as a number (order-faithful for
well-formed ISO dates). -/
def dateKey (s : String) : ℚ :=
  (natOfDigits (s.data.filter Char.isDigit) : ℚ)

/-- Stable insertion into a list sorted by descending date key. -/
def insertByDateDesc (e : Expense) : List Expense → List Expense
  | [] => [e]
  | x :: xs =>
    if dateKey x.date < dateKey e.date then e :: x :: xs
    else x :: insertByDateDesc e xs

/-- The comparator sort `(a, b) => new Date(b.date) - new Date(a.date)`
(descending by date), modelled as a stable insertion sort on the freshly
read copy of the list. -/
def sortByDateDesc (l : List Expense) : List Expense :=
  l.foldr insertByDateDesc []

/-- `ExpenseManager.getRecentExpenses`: sort the freshly read copy
descending by date, take the first `limit`. -/
def getRecentExpenses (limit : ℕ) (s : Store) : List Expense × Store :=
  ((sortByDateDesc (getAllExpenses s).1).take limit, s)

/-- `ExpenseManager.getExpensesByDateRange` (inclusive bounds). -/
def getExpensesByDateRange (startD endD : ℚ) (s : Store) :
    List Expense × Store :=
  ((getAllExpenses s).1.filter
    (fun e => decide (startD ≤ dateKey e.date) &&
      decide (dateKey e.date ≤ endD)), s)

/-- Minimum date key of a non-empty expense list (`Math.min(...dates)`). -/
def minDateKey (e : Expense) (es : List Expense) : ℚ :=
  es.foldl (fun a x => min a (dateKey x.date)) (dateKey e.date)

/-- `ExpenseManager.getAverageDailySpending`: 0 with no expenses, else
total over `max(1, ceil((today - first) / 86400000))`; the grand total of
a validated record is never NaN, an (unreachable) NaN total is read as
0. -/
def getAverageDailySpending (today : ℚ) (s : Store) : ℚ × Store :=
  match (getAllExpenses s).1 with
  | [] => (0, s)
  | e :: rest =>
    let firstDate := minDateKey e rest
    let days : ℤ := max 1 (Int.ceil ((today - firstDate) / 86400000))
    (((getTotalExpenses s).1.getD 0) / (days : ℚ), s)

-- ===========================
-- AuthManager (src/firebase-config.js)
-- ===========================

/-- Outcome of an underlying provider call that yields a user on success:
the user (an opaque identity, modelled by its email string) or a thrown
error carrying a code. -/
inductive ProviderOutcome where
  | ok (user : String)
  | err (code : String)
deriving DecidableEq

/-- What an AuthManager method hands back to its caller: the uniform
result object or a bare boolean. -/
inductive AuthRet where
  | obj (success : Bool) (user : Option String) (error : Option String)
  | boolean (b : Bool)
deriving DecidableEq

/-- Whether a returned value has the uniform result-object shape. -/
def isResultObj : AuthRet → Bool
  | AuthRet.obj _ _ _ => true
  | AuthRet.boolean _ => false

/-- The fixed error-code table of `AuthManager.getErrorMessage`. -/
def errorMessages : List (String × String) :=
  [("auth/email-already-in-use",
      "This email is already registered. Please sign in instead."),
   ("auth/invalid-email", "Please enter a valid email address."),
   ("auth/operation-not-allowed",
      "Email/password sign-in is not enabled."),
   ("auth/weak-password", "Password should be at least 6 characters."),
   ("auth/user-disabled", "This account has been disabled."),
   ("auth/user-not-found", "No account found with this email."),
   ("auth/wrong-password", "Incorrect password. Please try again."),
   ("auth/too-many-requests",
      "Too many failed attempts. Please try again later."),
   ("auth/network-request-failed",
      "Network error. Please check your connection."),
   ("auth/requires-recent-login",
      "Please sign in again to perform this action."),
   ("auth/popup-blocked",
      "Popup blocked. Please allow popups for this site."),
   ("auth/popup-closed-by-user", "Sign-in cancelled.")]

/-- The generic fallback of `getErrorMessage`. -/
def genericAuthError : String := "An error occurred. Please try again."

/-- `AuthManager.getErrorMessage`: table lookup with generic fallback. -/
def getErrorMessage (code : String) : String :=
  match errorMessages.lookup code with
  | some m => m
  | none => genericAuthError

/-- `AuthManager.signUp`: try/catch around the provider call, uniform
result object either way. -/
def signUp (o : ProviderOutcome) : AuthRet :=
  match o with
  | ProviderOutcome.ok u => AuthRet.obj true (some u) none
  | ProviderOutcome.err c =>
    AuthRet.obj false none (some (getErrorMessage c))

/-- `AuthManager.signIn`. -/
def signIn (o : ProviderOutcome) : AuthRet :=
  match o with
  | ProviderOutcome.ok u => AuthRet.obj true (some u) none
  | ProviderOutcome.err c =>
    AuthRet.obj false none (some (getErrorMessage c))

/-- `AuthManager.signInWithGoogle`: the closed-popup code is special-cased
before the table lookup. -/
def signInWithGoogle (o : ProviderOutcome) : AuthRet :=
  match o with
  | ProviderOutcome.ok u => AuthRet.obj true (some u) none
  | ProviderOutcome.err c =>
    if c = "auth/popup-closed-by-user" then
      AuthRet.obj false none (some "Sign-in cancelled")
    else AuthRet.obj false none (some (getErrorMessage c))

/-- `AuthManager.signOut`: returns a bare boolean, true on success and
false when the provider call throws (the thrown code, if any, is the
argument). -/
def signOut (thrown : Option String) : AuthRet :=
  match thrown with
  | none => AuthRet.boolean true
  | some _ => AuthRet.boolean false

/-- `AuthManager.resetPassword`: no user in the success object. -/
def resetPassword (thrown : Option String) : AuthRet :=
  match thrown with
  | none => AuthRet.obj true none none
  | some c => AuthRet.obj false none (some (getErrorMessage c))

-- ===========================
-- Helper lemmas (shared)
-- ===========================

/-- The numeric amount of an expense (0 for the NaN case, which validated
records exclude). -/
def ratAmount (e : Expense) : ℚ := e.amount.getD 0

/-- Mathematical sum of the amounts of a list of expenses. -/
def ratSum (es : List Expense) : ℚ := (es.map ratAmount).sum

theorem jOrZero_some (q : ℚ) : jOrZero (some q) = some q := by
  rcases eq_or_ne q 0 with h | h <;> simp [jOrZero, h]

theorem getData_valid (s : Store) :
    validateDataStructure (getData s) = true := by
  unfold getData
  cases s with
  | none => decide
  | some r =>
    cases hv : validateDataStructure r with
    | true => simp [hv]
    | false =>
      simp only [hv, Bool.false_eq_true, if_false]
      decide

theorem foldl_jadd (es : List Expense) (a : ℚ)
    (h : ∀ e ∈ es, e.amount.isSome) :
    es.foldl (fun acc e => jadd acc (parseFloat (JsIn.num e.amount)))
      (some a) = some (a + ratSum es) := by
  induction es generalizing a with
  | nil => simp [ratSum]
  | cons e rest ih =>
    obtain ⟨q, hq⟩ := Option.isSome_iff_exists.mp (h e (by simp))
    have hstep : jadd (some a) (parseFloat (JsIn.num e.amount))
        = some (a + q) := by
      simp [parseFloat, hq, jadd]
    rw [List.foldl_cons, hstep, ih (a + q) (fun x hx => h x (by simp [hx]))]
    simp [ratSum, ratAmount, hq, add_assoc]

theorem amountsSum_valid (es : List Expense)
    (h : ∀ e ∈ es, e.amount.isSome) :
    amountsSum es = some (ratSum es) := by
  unfold amountsSum
  rw [foldl_jadd es 0 h, zero_add]

theorem valid_amounts (d : Record) (h : validateDataStructure d = true) :
    ∀ e ∈ d.expenses, e.amount.isSome := by
  intro e he
  unfold validateDataStructure at h
  have h2 := (Bool.and_eq_true _ _).mp h |>.2
  have h3 := (List.all_eq_true.mp h2) e he
  unfold validExpense at h3
  exact (Bool.and_eq_true _ _).mp h3 |>.2

-- ===========================
-- Claim theorems
-- ===========================

/-- C10: every read-only query (getAllExpenses, getExpensesByCategory,
getTotalExpenses, getCategoryStatistics, getRecentExpenses,
getExpensesByDateRange, getAverageDailySpending, getBudget,
getRemainingBudget) leaves the persisted record unchanged; in particular
getRecentExpenses sorts a freshly read copy, so the stored insertion
order is never mutated by querying. -/
theorem c10_queries_leave_store (s : Store) (c : String) (n : ℕ)
    (d1 d2 today : ℚ) :
    (getAllExpenses s).2 = s ∧ (getExpensesByCategory c s).2 = s
    ∧ (getTotalExpenses s).2 = s ∧ (getCategoryStatistics s).2 = s
    ∧ (getRecentExpenses n s).2 = s
    ∧ (getExpensesByDateRange d1 d2 s).2 = s
    ∧ (getAverageDailySpending today s).2 = s ∧ (getBudget s).2 = s
    ∧ (getRemainingBudget s).2 = s := by
  refine ⟨rfl, ?_, rfl, rfl, rfl, rfl, ?_, rfl, rfl⟩
  · unfold getExpensesByCategory
    split <;> rfl
  · unfold getAverageDailySpending
    split <;> rfl

/-- C1: `saveData` always returns a boolean (it is a total function into
`Bool × Store`); it returns true and persists exactly when the record
passes shape validation and its serialization is within the 5 MiB
ceiling, in which case an immediate `getData` returns the written record;
otherwise it returns false, the previous store is untouched, and a
subsequent `getData` returns the prior record. -/
theorem c1_write_read (r : Record) (s : Store) :
    ((saveData r s).1 = true ↔
      (validateDataStructure r = true ∧ (stringify r).length ≤ sizeLimit))
    ∧ ((saveData r s).1 = true → getData (saveData r s).2 = r)
    ∧ ((saveData r s).1 = false →
        (saveData r s).2 = s ∧ getData (saveData r s).2 = getData s) := by
  unfold saveData
  by_cases hv : validateDataStructure r
  · by_cases hl : (stringify r).length > sizeLimit
    · simp [hv, hl]
    · simp [hv, hl, getData]
      omega
  · simp [hv]

/-- Witness for C1 at a concrete input: the default record passes
validation and fits the ceiling, so the write succeeds and reads back. -/
theorem c1_write_read_witness :
    (saveData getDefaultData none).1 = true
    ∧ getData (saveData getDefaultData none).2 = getDefaultData := by
  have h := c1_write_read getDefaultData none
  have h1 : (saveData getDefaultData none).1 = true :=
    h.1.mpr ⟨by decide, by decide⟩
  exact ⟨h1, h.2.1 h1⟩

theorem jOrZero_isSome (j : JsNum) : (jOrZero j).isSome = true := by
  cases j with
  | none => rfl
  | some q => rcases eq_or_ne q 0 with h | h <;> simp [jOrZero, h]

/-- C3: the remaining budget is the stored budget minus the sum of all
stored expense amounts, with no floor at zero. -/
theorem c3_remaining (s : Store) (qb : ℚ)
    (hb : (getData s).budget = some qb) :
    (getRemainingBudget s).1 = some (qb - ratSum (getData s).expenses) := by
  show jsub (jOrZero (getData s).budget)
      (amountsSum (getData s).expenses) = _
  rw [hb, jOrZero_some,
    amountsSum_valid _ (valid_amounts _ (getData_valid s))]
  rfl

/-- A record used to witness C3: budget 1000, expenses summing to 1500. -/
def overspentRec : Record :=
  ⟨some 1000,
    [⟨"e1", "groceries", some 900, "food", "2024-01-01", "t0", none⟩,
     ⟨"e2", "fuel", some 600, "transport", "2024-01-02", "t0", none⟩]⟩

/-- Witness for C3: budget 1000 with expenses summing to 1500 gives the
negative remaining value -500. -/
theorem c3_remaining_witness :
    (getRemainingBudget (some overspentRec)).1 = some (-500) := by
  have h := c3_remaining (some overspentRec) 1000 (by decide)
  have hx : (getData (some overspentRec)).expenses
      = overspentRec.expenses := by decide
  rw [h, hx]
  simp only [overspentRec, ratSum, ratAmount, List.map_cons, List.map_nil,
    List.sum_cons, List.sum_nil, Option.getD_some, Option.some.injEq]
  norm_num

/-- Appending an expense whose coerced amount is NaN makes the record fail
validation. -/
theorem validate_append_nan (d : Record) (ne : Expense)
    (h : ne.amount = none) :
    validateDataStructure ⟨d.budget, d.expenses ++ [ne]⟩
      = false := by
  simp [validateDataStructure, List.all_append, validExpense, h]

/-- C9: an add whose input amount does not parse to a number coerces to
NaN, fails validation, so the write is rejected and the store (hence any
later getAllExpenses) is unchanged; addExpense still returns the unsaved
expense carrying the NaN amount and gives no failure signal. -/
theorem c9_add_nan (newId now : String) (inp : AddInput) (s : Store)
    (h : parseFloat inp.amount = none) :
    (addExpense newId now inp s).2 = s
    ∧ (addExpense newId now inp s).1.amount = none
    ∧ (getAllExpenses (addExpense newId now inp s).2).1
        = (getAllExpenses s).1 := by
  have hval := validate_append_nan (getData s)
    ⟨newId, inp.description, parseFloat inp.amount, inp.category,
      inp.date, now, none⟩ h
  have hs : (addExpense newId now inp s).2 = s := by
    simp [addExpense, saveData, hval]
  exact ⟨hs, h, by rw [hs]⟩

/-- Witness for C9: the string "abc" does not parse, the store stays
empty. -/
theorem c9_add_nan_witness :
    (addExpense "e1" "t0" ⟨"lunch", JsIn.str "abc", "food", "2024-01-01"⟩
      none).2 = none := by
  exact (c9_add_nan "e1" "t0"
    ⟨"lunch", JsIn.str "abc", "food", "2024-01-01"⟩ none (by decide)).1

/-- An expense with a negative amount: every field truthy, amount a
non-NaN number, so it passes the persistence validation. -/
def negExp : Expense :=
  ⟨"e1", "refund", some (-5), "food", "2024-01-01", "t0", none⟩

/-- A stored record holding `negExp`. -/
def negRec : Record := ⟨some 0, [negExp]⟩

/-- C2 counterexample: a persisted record whose expense amount is the
negative number -5 passes `validateDataStructure` and is returned intact
by `getData`, so read records do not satisfy "amount ≥ 0". -/
theorem c2_counterexample :
    validateDataStructure negRec = true
    ∧ getData (some negRec) = negRec
    ∧ negExp ∈ (getData (some negRec)).expenses
    ∧ negExp.amount = some (-5)
    ∧ ((-5 : ℚ) < 0) := by
  decide

/-- C2 (amended): every record returned by `getData` passes the code's
actual check — budget a number that is not NaN, every expense amount a
number that is not NaN (negative values allowed) and the four text fields
truthy — and any stored record failing this check is replaced by the
default empty record (budget 0, no expenses). -/
theorem c2_read_invariant (s : Store) :
    validateDataStructure (getData s) = true
    ∧ (getData s).budget.isSome = true
    ∧ (∀ e ∈ (getData s).expenses,
        e.amount.isSome = true ∧ e.id ≠ "" ∧ e.description ≠ ""
          ∧ e.category ≠ "" ∧ e.date ≠ "")
    ∧ (∀ r, s = some r → validateDataStructure r = false →
        getData s = getDefaultData) := by
  refine ⟨getData_valid s,
    ((Bool.and_eq_true _ _).mp (getData_valid s)).1, ?_, ?_⟩
  · intro e he
    have h2 := ((Bool.and_eq_true _ _).mp (getData_valid s)).2
    have h3 := List.all_eq_true.mp h2 e he
    have h4 : (!e.id.isEmpty && !e.description.isEmpty
        && !e.category.isEmpty && !e.date.isEmpty
        && e.amount.isSome) = true := h3
    simp only [Bool.and_eq_true, Bool.not_eq_true'] at h4
    obtain ⟨⟨⟨⟨h5, h6⟩, h7⟩, h8⟩, h9⟩ := h4
    have emp : ∀ t : String, t.isEmpty = false → t ≠ "" := by
      intro t ht hteq
      rw [hteq] at ht
      exact absurd ht (by decide)
    exact ⟨h9, emp _ h5, emp _ h6, emp _ h7, emp _ h8⟩
  · intro r hr hbad
    subst hr
    simp [getData, hbad]

theorem getData_some_valid (r : Record)
    (h : validateDataStructure r = true) : getData (some r) = r := by
  simp only [getData]
  rw [if_pos h]

/-- C6 counterexample: `setBudget` with the number -5 (as the UI passes
after its own `parseFloat`) stores the negative budget -5: the code's
`parseFloat(amount) || 0` does not clamp negatives. -/
theorem c6_counterexample :
    (setBudget (JsIn.num (some (-5))) none).1 = true
    ∧ (getData (setBudget (JsIn.num (some (-5))) none).2).budget
        = some (-5)
    ∧ ((-5 : ℚ) < 0) := by
  decide

/-- C6 (amended): `setBudget` stores `parseFloat(v) || 0` as the budget —
0 for input that does not parse (or parses to 0), and the parsed value
verbatim otherwise, including negative values — and writes the whole
record back (the expenses are preserved); the stored budget is always a
number, never NaN, but it can be negative. -/
theorem c6_set_budget (v : JsIn) (s : Store)
    (hsz : (stringify
      ⟨jOrZero (parseFloat v), (getData s).expenses⟩).length
        ≤ sizeLimit) :
    (setBudget v s).1 = true
    ∧ (getData (setBudget v s).2).budget = jOrZero (parseFloat v)
    ∧ (getData (setBudget v s).2).expenses = (getData s).expenses
    ∧ (parseFloat v = none → jOrZero (parseFloat v) = some 0)
    ∧ (∀ q, parseFloat v = some q → q ≠ 0 →
        jOrZero (parseFloat v) = some q)
    ∧ (jOrZero (parseFloat v)).isSome = true := by
  have hval : validateDataStructure
      ⟨jOrZero (parseFloat v), (getData s).expenses⟩ = true := by
    unfold validateDataStructure
    simp only [jOrZero_isSome, Bool.true_and]
    exact ((Bool.and_eq_true _ _).mp (getData_valid s)).2
  have hsv : setBudget v s =
      (true, some ⟨jOrZero (parseFloat v), (getData s).expenses⟩) := by
    unfold setBudget saveData
    rw [if_pos hval, if_neg (by omega)]
  refine ⟨by rw [hsv], ?_, ?_, ?_, ?_, jOrZero_isSome _⟩
  · rw [hsv, getData_some_valid _ hval]
  · rw [hsv, getData_some_valid _ hval]
  · intro h
    rw [h]
    rfl
  · intro q hq hne
    rw [hq]
    simp [jOrZero, hne]

/-- Witness for C6 (amended) at a concrete input: the string "abc" does
not parse, so the stored budget becomes 0. -/
theorem c6_set_budget_witness :
    (setBudget (JsIn.str "abc") none).1 = true
    ∧ (getData (setBudget (JsIn.str "abc") none).2).budget = some 0 := by
  have h := c6_set_budget (JsIn.str "abc") none (by decide)
  refine ⟨h.1, ?_⟩
  rw [h.2.1]
  decide

theorem updateFirst_not_found (l : List Expense) (id : String)
    (ch : Changes) (now : String) (h : ∀ e ∈ l, e.id ≠ id) :
    updateFirst l id ch now = (none, l) := by
  induction l with
  | nil => rfl
  | cons e rest ih =>
    have hne : e.id ≠ id := h e (by simp)
    simp [updateFirst, hne, ih (fun x hx => h x (by simp [hx]))]

theorem updateFirst_found (A : List Expense) (old : Expense)
    (B : List Expense) (id : String) (ch : Changes) (now : String)
    (hA : ∀ e ∈ A, e.id ≠ id) (hold : old.id = id) :
    updateFirst (A ++ old :: B) id ch now
      = (some (mergeExpense old ch now),
          A ++ mergeExpense old ch now :: B) := by
  induction A with
  | nil => simp [updateFirst, hold]
  | cons a A2 ih =>
    have hne : a.id ≠ id := hA a (by simp)
    simp [updateFirst, hne, ih (fun x hx => hA x (by simp [hx]))]

theorem validate_mem_nan (b : JsNum) (l : List Expense) (m : Expense)
    (hm : m ∈ l) (h : m.amount = none) :
    validateDataStructure ⟨b, l⟩ = false := by
  have hall : l.all validExpense = false :=
    List.all_eq_false.mpr ⟨m, hm, by simp [validExpense, h]⟩
  simp [validateDataStructure, hall]

/-- A stored record with one expense of amount 7, used for C5. -/
def updRec : Record :=
  ⟨some 0, [⟨"e1", "lunch", some 7, "food", "2024-01-01", "t0", none⟩]⟩

/-- C5 counterexample: updating with a change set that does not name
`amount` does not keep the prior amount — the merged entry's amount is
`parseFloat(undefined)` = NaN — and the record is not persisted (the
store is unchanged), contradicting "fields not named in changes keep
their prior values" and "persists the record". -/
theorem c5_counterexample :
    ((updateExpense "e1" ⟨none, none, none, none⟩ "t1"
        (some updRec)).1.map (fun e => e.amount)) = some none
    ∧ (updateExpense "e1" ⟨none, none, none, none⟩ "t1"
        (some updRec)).2 = some updRec
    ∧ (getData (some updRec)).expenses.map (fun e => e.amount)
        = [some 7] := by
  decide

/-- C5 (amended): with no matching id, `updateExpense` returns the null
sentinel without raising and the store is unchanged.  With a matching id
it returns the merge of the changes into the located entry, where fields
other than `amount` keep their prior values when unnamed, but `amount` is
always overwritten with `parseFloat` of the change set's (possibly
absent) amount, and an `updatedAt` stamp is added; the merged record is
persisted only when it passes validation and the size ceiling — in
particular a change set without a parseable amount leaves the store
unchanged while still returning the merged entity. -/
theorem c5_update (id : String) (ch : Changes) (now : String) (s : Store) :
    ((∀ e ∈ (getData s).expenses, e.id ≠ id) →
      updateExpense id ch now s = (none, s))
    ∧ (∀ A old B, (getData s).expenses = A ++ old :: B →
        (∀ e ∈ A, e.id ≠ id) → old.id = id →
        (updateExpense id ch now s).1 = some (mergeExpense old ch now)
        ∧ (mergeExpense old ch now).description
            = ch.description.getD old.description
        ∧ (mergeExpense old ch now).category
            = ch.category.getD old.category
        ∧ (mergeExpense old ch now).date = ch.date.getD old.date
        ∧ (mergeExpense old ch now).amount = parseFloatU ch.amount
        ∧ (mergeExpense old ch now).updatedAt = some now
        ∧ (parseFloatU ch.amount = none →
            (updateExpense id ch now s).2 = s)
        ∧ (validExpense (mergeExpense old ch now) = true →
            (stringify ⟨(getData s).budget,
              A ++ mergeExpense old ch now :: B⟩).length ≤ sizeLimit →
            (updateExpense id ch now s).2
              = some ⟨(getData s).budget,
                  A ++ mergeExpense old ch now :: B⟩)) := by
  constructor
  · intro h
    simp [updateExpense, updateFirst_not_found _ _ _ _ h]
  · intro A old B hsplit hA hold
    have hup : updateExpense id ch now s
        = (some (mergeExpense old ch now),
            (saveData ⟨(getData s).budget,
              A ++ mergeExpense old ch now :: B⟩ s).2) := by
      simp only [updateExpense]
      rw [hsplit, updateFirst_found A old B id ch now hA hold]
    refine ⟨by rw [hup], rfl, rfl, rfl, rfl, rfl, ?_, ?_⟩
    · intro hnan
      rw [hup]
      have hbad := validate_mem_nan (getData s).budget
        (A ++ mergeExpense old ch now :: B) (mergeExpense old ch now)
        (by simp) (by simp [mergeExpense, hnan])
      simp [saveData, hbad]
    · intro hm hsz
      rw [hup]
      have hvd := getData_valid s
      unfold validateDataStructure at hvd
      rw [hsplit] at hvd
      have hbud := ((Bool.and_eq_true _ _).mp hvd).1
      have hall := ((Bool.and_eq_true _ _).mp hvd).2
      simp only [List.all_append, List.all_cons, Bool.and_eq_true] at hall
      have hval2 : validateDataStructure
          ⟨(getData s).budget, A ++ mergeExpense old ch now :: B⟩
            = true := by
        unfold validateDataStructure
        simp only [List.all_append, List.all_cons, Bool.and_eq_true]
        exact ⟨hbud, hall.1, hm, hall.2.2⟩
      unfold saveData
      rw [if_pos hval2, if_neg (by omega)]

/-- Witness for C5 (amended): a concrete update that renames the
description and changes the amount to 9 returns the merged, stamped
entity. -/
theorem c5_update_witness :
    (updateExpense "e1"
      ⟨some "dinner", some (JsIn.num (some 9)), none, none⟩ "t1"
      (some updRec)).1
      = some ⟨"e1", "dinner", some 9, "food", "2024-01-01", "t0",
          some "t1"⟩ := by
  have h := ((c5_update "e1"
      ⟨some "dinner", some (JsIn.num (some 9)), none, none⟩ "t1"
      (some updRec)).2 []
      ⟨"e1", "lunch", some 7, "food", "2024-01-01", "t0", none⟩ []
      (by decide) (by decide) (by decide)).1
  rw [h]
  decide


theorem lookup_of_mem (l : List (String × String)) (c m : String)
    (hnd : (l.map Prod.fst).Nodup) (hm : (c, m) ∈ l) :
    l.lookup c = some m := by
  induction l with
  | nil => simp at hm
  | cons p rest ih =>
    rcases List.mem_cons.mp hm with h | h
    · rw [← h]
      simp [List.lookup]
    · have hc : c ∈ rest.map Prod.fst :=
        List.mem_map.mpr ⟨(c, m), h, rfl⟩
      have hcp : (c == p.1) = false := by
        rw [beq_eq_false_iff_ne]
        intro he
        rw [he] at hc
        exact (List.nodup_cons.mp (by simpa using hnd)).1 hc
      cases p with
    | mk k v =>
      simp only [List.lookup, hcp]
      exact ih (List.nodup_cons.mp (by simpa using hnd)).2 h

theorem lookup_of_not_mem (l : List (String × String)) (c : String)
    (h : c ∉ l.map Prod.fst) : l.lookup c = none := by
  induction l with
  | nil => rfl
  | cons p rest ih =>
    have hcp : (c == p.1) = false := by
      rw [beq_eq_false_iff_ne]
      intro he
      exact h (by simp [he])
    cases p with
    | mk k v =>
      simp only [List.lookup, hcp]
      exact ih (fun hx => h (by simp at hx ⊢; exact Or.inr hx))

/-- C8 counterexample: `signOut` returns a bare boolean (true on success,
false on a provider error), not the uniform result-object shape claimed
for every listed operation. -/
theorem c8_counterexample :
    signOut none = AuthRet.boolean true
    ∧ isResultObj (signOut none) = false
    ∧ signOut (some "auth/network-request-failed")
        = AuthRet.boolean false := by
  exact ⟨rfl, rfl, rfl⟩

/-- C8 (amended): `signUp`, `signIn`, `signInWithGoogle` and
`resetPassword` return the uniform result-object shape for every provider
outcome and never throw; `signOut` instead returns a bare boolean.
`getErrorMessage` maps every code in the fixed table to its fixed
user-facing string and every other code to the single generic fallback. -/
theorem c8_auth_results (o : ProviderOutcome) (ro so : Option String)
    (c m : String) :
    isResultObj (signUp o) = true
    ∧ isResultObj (signIn o) = true
    ∧ isResultObj (signInWithGoogle o) = true
    ∧ isResultObj (resetPassword ro) = true
    ∧ (∃ b, signOut so = AuthRet.boolean b)
    ∧ ((c, m) ∈ errorMessages → getErrorMessage c = m)
    ∧ (c ∉ errorMessages.map Prod.fst →
        getErrorMessage c = genericAuthError) := by
  refine ⟨?_, ?_, ?_, ?_, ?_, ?_, ?_⟩
  · cases o <;> rfl
  · cases o <;> rfl
  · cases o with
    | ok u => rfl
    | err code =>
      by_cases hc : code = "auth/popup-closed-by-user" <;>
        simp [signInWithGoogle, isResultObj, hc]
  · cases ro <;> rfl
  · cases so with
    | none => exact ⟨true, rfl⟩
    | some code => exact ⟨false, rfl⟩
  · intro hm
    have hnd : (errorMessages.map Prod.fst).Nodup := by decide
    unfold getErrorMessage
    rw [lookup_of_mem errorMessages c m hnd hm]
  · intro hn
    unfold getErrorMessage
    rw [lookup_of_not_mem errorMessages c hn]

/-- Witness for C8 (amended) at concrete codes: a mapped code gets its
fixed string, an unmapped code gets the generic fallback. -/
theorem c8_auth_results_witness :
    getErrorMessage "auth/invalid-email"
      = "Please enter a valid email address."
    ∧ getErrorMessage "auth/no-such-code" = genericAuthError := by
  have h1 := c8_auth_results (ProviderOutcome.ok "u") none none
    "auth/invalid-email" "Please enter a valid email address."
  have h2 := c8_auth_results (ProviderOutcome.ok "u") none none
    "auth/no-such-code" ""
  exact ⟨h1.2.2.2.2.2.1 (by decide), h2.2.2.2.2.2.2 (by decide)⟩

/-- A record with a NaN budget: fails validation. -/
def nanBudgetRec : Record := ⟨none, []⟩

/-- Witness for C2 (amended) at concrete inputs: the stored record with a
negative amount is returned with its non-NaN fields intact, and a record
with a NaN budget degrades to the default. -/
theorem c2_read_invariant_witness :
    (getData (some negRec)).budget.isSome = true
    ∧ negExp.amount.isSome = true
    ∧ getData (some nanBudgetRec) = getDefaultData := by
  have h1 := c2_read_invariant (some negRec)
  have h2 := c2_read_invariant (some nanBudgetRec)
  exact ⟨h1.2.1, (h1.2.2.1 negExp (by decide)).1,
    h2.2.2.2 nanBudgetRec rfl (by decide)⟩

theorem joinComma_length_cons (x : String) (l : List String) :
    (joinComma l).length ≤ (joinComma (x :: l)).length := by
  cases l with
  | nil => simp [joinComma]
  | cons y rest =>
    have h : joinComma (x :: y :: rest) = x ++ "," ++ joinComma (y :: rest) :=
      rfl
    rw [h]
    simp [String.length_append]

theorem joinComma_length_sublist {l1 l2 : List String}
    (h : List.Sublist l1 l2) :
    (joinComma l1).length ≤ (joinComma l2).length := by
  induction h with
  | slnil => exact le_refl _
  | cons x _ ih => exact le_trans ih (joinComma_length_cons x _)
  | cons₂ x hsub ih =>
    rename_i la lb
    cases la with
    | nil =>
      cases lb with
      | nil => exact le_refl _
      | cons b tb =>
        have h2 : joinComma (x :: b :: tb)
            = x ++ "," ++ joinComma (b :: tb) := rfl
        rw [h2]
        simp only [joinComma, String.length_append]
        omega
    | cons a ta =>
      cases lb with
      | nil => exact absurd hsub (by simp)
      | cons b tb =>
        have h1 : joinComma (x :: a :: ta)
            = x ++ "," ++ joinComma (a :: ta) := rfl
        have h2 : joinComma (x :: b :: tb)
            = x ++ "," ++ joinComma (b :: tb) := rfl
        rw [h1, h2]
        simp only [String.length_append]
        omega

theorem stringify_length_sublist (b : JsNum) {l1 l2 : List Expense}
    (h : List.Sublist l1 l2) :
    (stringify ⟨b, l1⟩).length ≤ (stringify ⟨b, l2⟩).length := by
  have hj := joinComma_length_sublist (h.map expenseToJson)
  unfold stringify
  simp only [String.length_append]
  omega

/-- The expense `addExpense` builds from one (id, timestamp, input)
triple. -/
def mkExpense (a : String × String × AddInput) : Expense :=
  ⟨a.1, a.2.2.description, parseFloat a.2.2.amount, a.2.2.category,
    a.2.2.date, a.2.1, none⟩

/-- A sequence of `addExpense` calls, returning the list of returned
expenses and the final store. -/
def addMany (adds : List (String × String × AddInput)) (s : Store) :
    List Expense × Store :=
  match adds with
  | [] => ([], s)
  | a :: rest =>
    let r1 := addExpense a.1 a.2.1 a.2.2 s
    let r2 := addMany rest r1.2
    (r1.1 :: r2.1, r2.2)

/-- An add whose generated expense passes the persistence validation. -/
def goodAdd (a : String × String × AddInput) : Bool :=
  !a.1.isEmpty && !a.2.2.description.isEmpty && !a.2.2.category.isEmpty
    && !a.2.2.date.isEmpty && (parseFloat a.2.2.amount).isSome

theorem validExpense_mkExpense (a : String × String × AddInput) :
    validExpense (mkExpense a) = goodAdd a := rfl

theorem addExpense_ok (a : String × String × AddInput) (s : Store)
    (hgood : goodAdd a = true)
    (hsz : (stringify ⟨(getData s).budget,
      (getData s).expenses ++ [mkExpense a]⟩).length ≤ sizeLimit) :
    addExpense a.1 a.2.1 a.2.2 s
      = (mkExpense a,
          some ⟨(getData s).budget,
            (getData s).expenses ++ [mkExpense a]⟩) := by
  have hv := getData_valid s
  have hval : validateDataStructure
      ⟨(getData s).budget, (getData s).expenses ++ [mkExpense a]⟩
        = true := by
    unfold validateDataStructure at hv ⊢
    simp only [List.all_append, List.all_cons, List.all_nil,
      Bool.and_eq_true] at hv ⊢
    exact ⟨hv.1, hv.2, by rw [validExpense_mkExpense]; exact hgood,
      trivial⟩
  show (mkExpense a, (saveData ⟨(getData s).budget,
    (getData s).expenses ++ [mkExpense a]⟩ s).2) = _
  unfold saveData
  rw [if_pos hval, if_neg (by omega)]

theorem validate_append_valid (d : Record) (ne : Expense)
    (hv : validateDataStructure d = true) (hne : validExpense ne = true) :
    validateDataStructure ⟨d.budget, d.expenses ++ [ne]⟩ = true := by
  unfold validateDataStructure at hv ⊢
  simp only [List.all_append, List.all_cons, List.all_nil,
    Bool.and_eq_true] at hv ⊢
  exact ⟨hv.1, hv.2, hne, trivial⟩

theorem addMany_run (adds : List (String × String × AddInput)) (s : Store)
    (hgood : ∀ a ∈ adds, goodAdd a = true)
    (hsz : (stringify ⟨(getData s).budget,
      (getData s).expenses ++ adds.map mkExpense⟩).length ≤ sizeLimit) :
    (addMany adds s).1 = adds.map mkExpense
    ∧ getData (addMany adds s).2
        = ⟨(getData s).budget,
            (getData s).expenses ++ adds.map mkExpense⟩ := by
  induction adds generalizing s with
  | nil =>
    refine ⟨rfl, ?_⟩
    show getData s = _
    simp
  | cons a rest ih =>
    have hga := hgood a (by simp)
    have hsz1 : (stringify ⟨(getData s).budget,
        (getData s).expenses ++ [mkExpense a]⟩).length ≤ sizeLimit := by
      refine le_trans (stringify_length_sublist _ ?_) hsz
      exact List.Sublist.append_left
        (List.Sublist.cons₂ _ (List.nil_sublist _)) _
    have hstep := addExpense_ok a s hga hsz1
    have hval1 : validateDataStructure
        ⟨(getData s).budget, (getData s).expenses ++ [mkExpense a]⟩
          = true :=
      validate_append_valid (getData s) (mkExpense a) (getData_valid s)
        (by rw [validExpense_mkExpense]; exact hga)
    have hgd1 := getData_some_valid _ hval1
    have ihs := ih (some ⟨(getData s).budget,
        (getData s).expenses ++ [mkExpense a]⟩)
      (fun x hx => hgood x (by simp [hx]))
      (by rw [hgd1]; simpa [List.append_assoc] using hsz)
    have hrun : addMany (a :: rest) s
        = (mkExpense a :: (addMany rest (some ⟨(getData s).budget,
            (getData s).expenses ++ [mkExpense a]⟩)).1,
           (addMany rest (some ⟨(getData s).budget,
            (getData s).expenses ++ [mkExpense a]⟩)).2) := by
      simp only [addMany]
      rw [hstep]
    refine ⟨by rw [hrun, ihs.1, List.map_cons], ?_⟩
    rw [hrun]
    show getData (addMany rest _).2 = _
    rw [ihs.2, hgd1]
    simp [List.append_assoc]

theorem not_mem_filter_self (l : List Expense) (e : Expense) :
    e ∉ l.filter (fun x => x.id ≠ e.id) := by
  intro hmem
  have h := List.of_mem_filter hmem
  simp at h

theorem filter_remove_unique (l : List Expense) (e : Expense)
    (he : e ∈ l) (hu : (l.map Expense.id).Nodup) :
    (l.filter (fun x => x.id ≠ e.id)).length + 1 = l.length
    ∧ ratSum (l.filter (fun x => x.id ≠ e.id))
        = ratSum l - ratAmount e := by
  induction l with
  | nil => simp at he
  | cons x t ih =>
    have hnd : (∀ y ∈ t, y.id ≠ x.id) ∧ (t.map Expense.id).Nodup := by
      simpa using hu
    rcases List.mem_cons.mp he with hxe | het
    · subst hxe
      have hft : t.filter (fun y => y.id ≠ e.id) = t :=
        List.filter_eq_self.mpr (fun y hy => by simpa using hnd.1 y hy)
      have hfe : (e :: t).filter (fun y => y.id ≠ e.id)
          = t.filter (fun y => y.id ≠ e.id) :=
        List.filter_cons_of_neg (by simp)
      rw [hfe, hft]
      exact ⟨by simp, by simp [ratSum]⟩
    · have hxid : x.id ≠ e.id := fun h => hnd.1 e het h.symm
      have iht := ih het hnd.2
      have hfc : (x :: t).filter (fun y => y.id ≠ e.id)
          = x :: t.filter (fun y => y.id ≠ e.id) :=
        List.filter_cons_of_pos (by simp [hxid])
      rw [hfc]
      constructor
      · simp only [List.length_cons]
        omega
      · simp only [ratSum, List.map_cons, List.sum_cons] at iht ⊢
        linarith [iht.2]

theorem delete_present (s : Store) (e : Expense)
    (he : e ∈ (getData s).expenses)
    (hu : ((getData s).expenses.map Expense.id).Nodup)
    (hsz : (stringify (getData s)).length ≤ sizeLimit) :
    (deleteExpense e.id s).1 = true
    ∧ e ∉ (getAllExpenses (deleteExpense e.id s).2).1
    ∧ (getTotalExpenses (deleteExpense e.id s).2).1
        = jsub (getTotalExpenses s).1 e.amount := by
  obtain ⟨hlen, hsum⟩ := filter_remove_unique (getData s).expenses e he hu
  have hlt : ((getData s).expenses.filter
      (fun x => x.id ≠ e.id)).length < (getData s).expenses.length := by
    omega
  have hval2 : validateDataStructure ⟨(getData s).budget,
      (getData s).expenses.filter (fun x => x.id ≠ e.id)⟩ = true := by
    have hv := getData_valid s
    unfold validateDataStructure at hv ⊢
    simp only [Bool.and_eq_true] at hv ⊢
    refine ⟨hv.1, List.all_eq_true.mpr ?_⟩
    intro x hx
    exact List.all_eq_true.mp hv.2 x (List.mem_of_mem_filter hx)
  have hsz2 : (stringify ⟨(getData s).budget,
      (getData s).expenses.filter (fun x => x.id ≠ e.id)⟩).length
        ≤ sizeLimit :=
    le_trans (stringify_length_sublist _ (List.filter_sublist _)) hsz
  have hdel : deleteExpense e.id s
      = (true, some ⟨(getData s).budget,
          (getData s).expenses.filter (fun x => x.id ≠ e.id)⟩) := by
    simp only [deleteExpense, saveData]
    rw [if_pos hlt, if_pos hval2, if_neg (by omega)]
  rw [hdel]
  refine ⟨rfl, ?_, ?_⟩
  · show e ∉ (getData (some _)).expenses
    rw [getData_some_valid _ hval2]
    exact not_mem_filter_self _ e
  · show amountsSum (getData (some _)).expenses = _
    rw [getData_some_valid _ hval2]
    obtain ⟨q, hq⟩ := Option.isSome_iff_exists.mp
      (valid_amounts _ (getData_valid s) e he)
    rw [amountsSum_valid _ (fun x hx => valid_amounts _ (getData_valid s)
        x (List.mem_of_mem_filter hx))]
    show _ = jsub (amountsSum (getData s).expenses) e.amount
    rw [amountsSum_valid _ (valid_amounts _ (getData_valid s)), hq]
    show some _ = some (ratSum (getData s).expenses - q)
    rw [hsum]
    have hra : ratAmount e = q := by simp [ratAmount, hq]
    rw [hra]

/-- C4 counterexample: a single add whose amount does not parse returns an
expense whose id a subsequent remove does not find — the remove returns
false, contradicting "remove on the id of one returned expense returns
true" for arbitrary add sequences. -/
theorem c4_counterexample :
    ((addMany [("e1", "t1",
        ⟨"lunch", JsIn.str "abc", "food", "2024-01-01"⟩)] none).1.map
      Expense.id = ["e1"])
    ∧ deleteExpense "e1"
        (addMany [("e1", "t1",
          ⟨"lunch", JsIn.str "abc", "food", "2024-01-01"⟩)] none).2
        = (false, none) := by
  decide

/-- C4 (amended): starting from an empty store, for any sequence of adds
whose inputs pass the persistence validation (truthy description,
category, date and generated id; amount coercing to a number), with
pairwise distinct generated ids and a final record within the size
ceiling: every returned expense is stored; removing one of the returned
ids returns true, the expense no longer appears in the list, and the
total decreases by exactly its amount.  Removing an id not present in the
stored record returns false and leaves the store unchanged. -/
theorem c4_add_remove (adds : List (String × String × AddInput))
    (hgood : ∀ a ∈ adds, goodAdd a = true)
    (hids : ((adds.map mkExpense).map Expense.id).Nodup)
    (hsz : (stringify ⟨some 0, adds.map mkExpense⟩).length ≤ sizeLimit) :
    ((addMany adds none).1 = adds.map mkExpense
      ∧ ∀ e ∈ (addMany adds none).1,
          (deleteExpense e.id (addMany adds none).2).1 = true
          ∧ e ∉ (getAllExpenses
              (deleteExpense e.id (addMany adds none).2).2).1
          ∧ (getTotalExpenses
              (deleteExpense e.id (addMany adds none).2).2).1
            = jsub (getTotalExpenses (addMany adds none).2).1 e.amount)
    ∧ (∀ (s : Store) (id : String),
        (∀ x ∈ (getData s).expenses, x.id ≠ id) →
        deleteExpense id s = (false, s)) := by
  constructor
  · have hrun := addMany_run adds none hgood (by simpa using hsz)
    have hgd : getData (addMany adds none).2
        = ⟨some 0, adds.map mkExpense⟩ := by
      rw [hrun.2]
      simp [getData, getDefaultData]
    refine ⟨hrun.1, ?_⟩
    intro e he
    rw [hrun.1] at he
    exact delete_present (addMany adds none).2 e (by rw [hgd]; exact he)
      (by rw [hgd]; exact hids) (by rw [hgd]; exact hsz)
  · intro s id h
    have hfe : (getData s).expenses.filter (fun x => x.id ≠ id)
        = (getData s).expenses :=
      List.filter_eq_self.mpr (fun x hx => by simpa using h x hx)
    simp only [deleteExpense]
    rw [hfe]
    simp

/-- Concrete adds used to witness C4: two valid expenses with amounts 5
and 7. -/
def twoAdds : List (String × String × AddInput) :=
  [("e1", "t1", ⟨"lunch", JsIn.num (some 5), "food", "2024-01-01"⟩),
   ("e2", "t2", ⟨"bus", JsIn.num (some 7), "transport", "2024-01-02"⟩)]

set_option maxRecDepth 8000 in
/-- Witness for C4 (amended): after two valid adds, removing the first
returned id succeeds. -/
theorem c4_add_remove_witness :
    (deleteExpense "e1" (addMany twoAdds none).2).1 = true := by
  have h := c4_add_remove twoAdds (by decide) (by decide) (by decide)
  have hm : mkExpense ("e1", "t1",
      ⟨"lunch", JsIn.num (some 5), "food", "2024-01-01"⟩)
        ∈ (addMany twoAdds none).1 := by
    rw [h.1.1]
    decide
  exact (h.1.2 _ hm).1

theorem mapCongrMem {α β : Type} (l : List α) (f g : α → β)
    (h : ∀ a ∈ l, f a = g a) : l.map f = l.map g := by
  induction l with
  | nil => rfl
  | cons x t ih =>
    simp only [List.map_cons, h x (List.mem_cons_self x t)]
    rw [ih (fun a ha => h a (List.mem_cons_of_mem _ ha))]

theorem round1_close (q : ℚ) : |round1 q - q| ≤ 1 / 20 := by
  have h := abs_sub_round (10 * q)
  unfold round1
  have h2 : ((round (10 * q) : ℤ) : ℚ) / 10 - q
      = -((10 * q - (round (10 * q) : ℤ)) / 10) := by ring
  rw [h2, abs_neg, abs_div, abs_of_pos (by norm_num : (0 : ℚ) < 10)]
  linarith

theorem sum_round1_close (ps : List ℚ) :
    |(ps.map round1).sum - ps.sum| ≤ (ps.length : ℚ) / 20 := by
  induction ps with
  | nil => simp
  | cons p t ih =>
    simp only [List.map_cons, List.sum_cons, List.length_cons]
    have h1 := round1_close p
    have habs : |round1 p + (t.map round1).sum - (p + t.sum)|
        ≤ |round1 p - p| + |(t.map round1).sum - t.sum| := by
      have he : round1 p + (t.map round1).sum - (p + t.sum)
          = (round1 p - p) + ((t.map round1).sum - t.sum) := by ring
      rw [he]
      exact abs_add _ _
    have hc : ((t.length + 1 : ℕ) : ℚ) = (t.length : ℚ) + 1 := by
      push_cast
      ring
    rw [hc]
    linarith

theorem ratSum_filter_or (l : List Expense) (p q : Expense → Bool)
    (hd : ∀ e ∈ l, ¬(p e = true ∧ q e = true)) :
    ratSum (l.filter (fun e => p e || q e))
      = ratSum (l.filter p) + ratSum (l.filter q) := by
  induction l with
  | nil => simp [ratSum]
  | cons e t ih =>
    have iht := ih (fun x hx => hd x (List.mem_cons_of_mem _ hx))
    cases hp : p e <;> cases hq : q e
    · simp [List.filter_cons, hp, hq, ratSum] at iht ⊢
      linarith
    · simp [List.filter_cons, hp, hq, ratSum] at iht ⊢
      linarith
    · simp [List.filter_cons, hp, hq, ratSum] at iht ⊢
      linarith
    · exact absurd ⟨hp, hq⟩ (hd e (List.mem_cons_self _ _))

theorem sum_cat_totals (es : List Expense) (cs : List String)
    (hnd : cs.Nodup) :
    (cs.map (fun c => ratSum (catEntries c es))).sum
      = ratSum (es.filter (fun e => decide (e.category ∈ cs))) := by
  induction cs with
  | nil => simp [ratSum]
  | cons c t ih =>
    have hnd2 := List.nodup_cons.mp hnd
    have iht := ih hnd2.2
    have hfun : es.filter (fun e => decide (e.category ∈ c :: t))
        = es.filter (fun e =>
            decide (e.category = c) || decide (e.category ∈ t)) := by
      congr 1
      funext e
      simp [List.mem_cons]
    have hdisj : ∀ e ∈ es, ¬((decide (e.category = c)) = true
        ∧ (decide (e.category ∈ t)) = true) := by
      intro e _ hcon
      obtain ⟨h1, h2⟩ := hcon
      rw [decide_eq_true_eq] at h1 h2
      exact hnd2.1 (h1 ▸ h2)
    rw [List.map_cons, List.sum_cons, hfun,
      ratSum_filter_or es _ _ hdisj, iht]
    rfl

/-- C7 (amended): each category is mapped to its filtered total and count;
when the grand total is positive the percentages (one-decimal-rounded)
sum to 100 within the rounding tolerance of 1/20 per category; when the
grand total is zero or negative (the code tests `total > 0`, not
`total ≠ 0`) every reported percentage is 0, so no division by zero
occurs. -/
theorem c7_stats (s : Store) (qt : ℚ)
    (ht : (getTotalExpenses s).1 = some qt) :
    (0 < qt →
      |(((getCategoryStatistics s).1.map
          (fun p => p.2.percentage)).sum - 100)|
        ≤ ((getCategoryStatistics s).1.length : ℚ) / 20)
    ∧ (qt ≤ 0 →
        ∀ p ∈ (getCategoryStatistics s).1, p.2.percentage = 0)
    ∧ (∀ p ∈ (getCategoryStatistics s).1,
        p.2.total = amountsSum (catEntries p.1 (getData s).expenses)
        ∧ p.2.count = (catEntries p.1 (getData s).expenses).length) := by
  have hvalid := valid_amounts _ (getData_valid s)
  have htot : amountsSum (getData s).expenses = some qt := ht
  have hqt : qt = ratSum (getData s).expenses :=
    Option.some_inj.mp (htot.symm.trans (amountsSum_valid _ hvalid))
  have hstats : (getCategoryStatistics s).1
      = (categories (getData s).expenses).map (fun c =>
          (c, ⟨amountsSum (catEntries c (getData s).expenses),
               (catEntries c (getData s).expenses).length,
               pctOf (amountsSum (catEntries c (getData s).expenses))
                 (getTotalExpenses s).1⟩)) := rfl
  refine ⟨?_, ?_, ?_⟩
  · intro h0
    have hmap : (getCategoryStatistics s).1.map (fun p => p.2.percentage)
        = (categories (getData s).expenses).map (fun c =>
            pctOf (amountsSum (catEntries c (getData s).expenses))
              (getTotalExpenses s).1) := by
      rw [hstats, List.map_map]
      rfl
    have hce : ∀ c, amountsSum (catEntries c (getData s).expenses)
        = some (ratSum (catEntries c (getData s).expenses)) := by
      intro c
      apply amountsSum_valid
      intro x hx
      exact hvalid x (List.mem_of_mem_filter hx)
    have hpc : ∀ c, pctOf (amountsSum (catEntries c (getData s).expenses))
        (getTotalExpenses s).1
          = round1 (ratSum (catEntries c (getData s).expenses)
              / qt * 100) := by
      intro c
      rw [ht, hce c]
      simp [pctOf, h0]
    have hlen : ((getCategoryStatistics s).1.length : ℚ)
        = ((categories (getData s).expenses).length : ℚ) := by
      rw [hstats]
      simp
    rw [hmap, hlen, mapCongrMem _ _ _ (fun c _ => hpc c)]
    have hmm : (categories (getData s).expenses).map
        (fun c => round1 (ratSum (catEntries c (getData s).expenses)
          / qt * 100))
        = ((categories (getData s).expenses).map
            (fun c => ratSum (catEntries c (getData s).expenses)
              / qt * 100)).map round1 := by
      rw [List.map_map]
      rfl
    have hsum100 : ((categories (getData s).expenses).map
        (fun c => ratSum (catEntries c (getData s).expenses)
          / qt * 100)).sum = 100 := by
      have hfactor : (fun c => ratSum (catEntries c (getData s).expenses)
          / qt * 100)
          = (fun c => ratSum (catEntries c (getData s).expenses)
              * (100 / qt)) := by
        funext c
        ring
      have hndcs : (categories (getData s).expenses).Nodup := by
        unfold categories
        exact List.nodup_dedup _
      rw [hfactor, List.sum_map_mul_right,
        sum_cat_totals (getData s).expenses
          (categories (getData s).expenses) hndcs]
      have hall : (getData s).expenses.filter (fun e =>
          decide (e.category ∈ categories (getData s).expenses))
            = (getData s).expenses := by
        refine List.filter_eq_self.mpr ?_
        intro x hx
        simp only [categories, List.mem_dedup, decide_eq_true_eq]
        exact List.mem_map.mpr ⟨x, hx, rfl⟩
      rw [hall, ← hqt]
      field_simp
    rw [hmm]
    calc |(((categories (getData s).expenses).map
          (fun c => ratSum (catEntries c (getData s).expenses)
            / qt * 100)).map round1).sum - 100|
        = |(((categories (getData s).expenses).map
            (fun c => ratSum (catEntries c (getData s).expenses)
              / qt * 100)).map round1).sum
          - ((categories (getData s).expenses).map
            (fun c => ratSum (catEntries c (getData s).expenses)
              / qt * 100)).sum| := by rw [hsum100]
      _ ≤ (((categories (getData s).expenses).map
            (fun c => ratSum (catEntries c (getData s).expenses)
              / qt * 100)).length : ℚ) / 20 := sum_round1_close _
      _ = ((categories (getData s).expenses).length : ℚ) / 20 := by
          simp
  · intro hle p hp
    rw [hstats] at hp
    obtain ⟨c, _, rfl⟩ := List.mem_map.mp hp
    show pctOf _ (getTotalExpenses s).1 = 0
    rw [ht]
    have hn : ¬(0 : ℚ) < qt := not_lt.mpr hle
    simp [pctOf, hn]
  · intro p hp
    rw [hstats] at hp
    obtain ⟨c, _, rfl⟩ := List.mem_map.mp hp
    exact ⟨rfl, rfl⟩

/-- C7 counterexample: with a single stored expense of amount -5 the grand
total is -5, which is nonzero, yet the code's `total > 0` test makes
every percentage 0, so the percentages sum to 0, not 100: the claim's
"whenever the grand total is nonzero" fails for negative totals. -/
theorem c7_counterexample :
    (getTotalExpenses (some negRec)).1 = some (-5)
    ∧ some (-5 : ℚ) ≠ some (0 : ℚ)
    ∧ (((getCategoryStatistics (some negRec)).1.map
        (fun p => p.2.percentage)).sum) = 0 := by
  have hes : (getData (some negRec)).expenses = [negExp] := by decide
  have ht : (getTotalExpenses (some negRec)).1 = some (-5) := by
    show amountsSum (getData (some negRec)).expenses = _
    rw [hes, amountsSum_valid _ (by decide)]
    simp [ratSum, ratAmount, negExp]
  refine ⟨ht, by norm_num, ?_⟩
  have h0 : (getCategoryStatistics (some negRec)).1
      = (categories (getData (some negRec)).expenses).map (fun c =>
          (c, ⟨amountsSum (catEntries c (getData (some negRec)).expenses),
               (catEntries c (getData (some negRec)).expenses).length,
               pctOf (amountsSum
                   (catEntries c (getData (some negRec)).expenses))
                 (getTotalExpenses (some negRec)).1⟩)) := rfl
  rw [h0, List.map_map]
  have hz : ∀ c : String,
      ((fun p : String × CatStat => p.2.percentage) ∘ (fun c =>
        (c, ⟨amountsSum (catEntries c (getData (some negRec)).expenses),
             (catEntries c (getData (some negRec)).expenses).length,
             pctOf (amountsSum
                 (catEntries c (getData (some negRec)).expenses))
               (getTotalExpenses (some negRec)).1⟩))) c = 0 := by
    intro c
    show pctOf _ (getTotalExpenses (some negRec)).1 = 0
    rw [ht]
    have hneg : ¬(0 : ℚ) < -5 := by norm_num
    simp [pctOf, hneg]
  rw [mapCongrMem _ _ (fun _ => (0 : ℚ)) (fun c _ => hz c)]
  simp

/-- The spec's concrete scenario record for C7: food 1200 and transport
300 under budget 5000. -/
def statRec : Record :=
  ⟨some 5000,
    [⟨"e1", "groceries", some 1200, "food", "2024-01-01", "t0", none⟩,
     ⟨"e2", "bus", some 300, "transport", "2024-01-02", "t0", none⟩]⟩

/-- Witness for C7 (amended): with totals 1200 and 300 the grand total
1500 is positive and the rounded percentages sum to 100 within the
tolerance for two categories. -/
theorem c7_stats_witness :
    |(((getCategoryStatistics (some statRec)).1.map
        (fun p => p.2.percentage)).sum - 100)|
      ≤ ((getCategoryStatistics (some statRec)).1.length : ℚ) / 20 := by
  have ht : (getTotalExpenses (some statRec)).1 = some 1500 := by
    show amountsSum (getData (some statRec)).expenses = _
    have hx : (getData (some statRec)).expenses = statRec.expenses := by
      decide
    rw [hx, amountsSum_valid _ (by decide)]
    simp only [statRec, ratSum, ratAmount, List.map_cons, List.map_nil,
      List.sum_cons, List.sum_nil, Option.getD_some, Option.some.injEq]
    norm_num
  exact (c7_stats (some statRec) 1500 ht).1 (by norm_num)
